import Mathlib

/-!
Shallow embedding of `pkg/devfile/adapters/docker/component/utils.go` (odo's
docker component adapter) and proofs about its reconciliation, volume
resolution, port mapping and devfile command pipeline.

External collaborators (the docker client, storage adapter, envinfo provider,
devfile parser) are modelled as an explicit environment of call results; the
control flow, branch structure, error wrapping and event ordering of the Go
source are translated statement by statement.  Go errors are `Option String`
(`none` = `nil`); `pkg/errors.Wrapf` semantics — returning `nil` when the
wrapped error is `nil` — are modelled faithfully by `wrapf`.
-/

namespace Odo

/-- Go error value: `none` is `nil`, `some msg` a non-nil error. -/
abbrev GoErr := Option String

/-- Model of `pkg/errors.Wrapf`: if the wrapped error is nil, `Wrapf` returns
nil (this is documented behaviour of the `pkg/errors` library and is load
bearing for the multiple-volume branches of the source). -/
def wrapf (e : GoErr) (msg : String) : GoErr :=
  e.map (fun s => msg ++ ": " ++ s)

/-- Label set on a docker resource, as an association list. -/
abbrev Labels := List (String × String)

/-- A docker volume as returned by `GetVolumesByLabel` (name + labels). -/
structure Volume where
  name : String
  labels : Labels
deriving DecidableEq, Repr

/-- A devfile endpoint (`versionsCommon.Endpoint`): logical name and
container port. -/
structure Endpoint where
  name : String
  port : Int
deriving DecidableEq, Repr

/-- A persisted URL record from `env.yaml` (`envinfo.EnvInfoURL`): name,
container port and host-exposed port. -/
structure LocalURL where
  name : String
  port : Int
  exposedPort : Int
deriving DecidableEq, Repr

/-- The fields of `versionsCommon.DevfileComponent` the adapter reads:
container alias (`Container.Name`), image and declared endpoints.  The env /
mount / `MountSources` fields only feed the pure config assembly inside
`startComponent`, which performs no runtime call, so they are not modelled. -/
structure DevfileComponent where
  name : String
  image : String
  endpoints : List Endpoint
deriving DecidableEq, Repr

/-- A live container as returned by `GetContainersByComponentAndAlias`. -/
structure ContainerInfo where
  id : String
deriving DecidableEq, Repr

/-- One resolved port binding (`nat.PortBinding`): host IP and host port. -/
structure PortBinding where
  hostIP : String
  hostPort : String
deriving DecidableEq, Repr

/-- The constant `LocalhostIP` of the source. -/
def LocalhostIP : String := "127.0.0.1"

/-- Runtime calls made by the adapter, in the order they are issued.  Each
container-level event is tagged with the alias of the devfile component whose
loop iteration issued it. -/
inductive Event where
  | createVolume (name : String)
  | pullImage (compAlias image : String)
  | removeContainer (compAlias id : String)
  | startContainer (compAlias image : String)
  | execInit (id : String)
  | execBuild (id : String)
  | supervisordInit (component : String)
  | execRunNoRestart (id : String)
  | execRun (id : String)
deriving DecidableEq, Repr

/-- Event classifier: an image pull. -/
def Event.isPull : Event → Bool
  | .pullImage _ _ => true
  | _ => false

/-- Event classifier: a volume creation. -/
def Event.isCreateVolume : Event → Bool
  | .createVolume _ => true
  | _ => false

/-- Event classifier: a devfile command execution (init, build, supervisord
initialization or run). -/
def Event.isCommandExec : Event → Bool
  | .execInit _ => true
  | .execBuild _ => true
  | .supervisordInit _ => true
  | .execRunNoRestart _ => true
  | .execRun _ => true
  | _ => false

/-- Event classifier: a container mutation (pull, remove, create+start)
issued for the given component alias. -/
def Event.isMutationFor (a : String) : Event → Bool
  | .pullImage c _ => c == a
  | .removeContainer c _ => c == a
  | .startContainer c _ => c == a
  | _ => false

/-- Docker label filtering: a volume matches a query when it carries every
queried label. -/
def labelsMatch (query has : Labels) : Bool :=
  query.all (fun p => decide (p ∈ has))

/-- Modelled from the spec: `utils.GetProjectVolumeLabels` (not under `src/`)
returns the project-source label set identifying the component. -/
def GetProjectVolumeLabels (componentName : String) : Labels :=
  [("component", componentName), ("type", "projects")]

/-- `lclient.Client.GetVolumesByLabel`: the volumes carrying all the queried
labels. -/
def getVolumesByLabel (vols : List Volume) (query : Labels) : List Volume :=
  vols.filter (fun v => labelsMatch query v.labels)

/-- `lclient.Client.CreateVolume`: appends a volume with the given name and
labels to the runtime state. -/
def createVolume (vols : List Volume) (name : String) (labels : Labels) : List Volume :=
  vols ++ [⟨name, labels⟩]

/-! ### Port mapping (`getPortMap`, lines 294–343) -/

/-- `common.IsPortPresent` (helper from a package not under `src/`; modelled
from the spec: true when the container port matches a declared endpoint). -/
def IsPortPresent (endpoints : List Endpoint) (port : Int) : Bool :=
  endpoints.any (fun e => e.port == port)

/-- `nat.NewPort("tcp", strconv.Itoa p)`: succeeds exactly when `p` parses as
a 16-bit port number. -/
def newPort (p : Int) : Except String Int :=
  if 0 ≤ p ∧ p ≤ 65535 then .ok p else .error ("invalid port " ++ toString p)

/-- Association-list lookup standing for reading a Go map keyed by port. -/
def lookupPM {α : Type} : List (Int × α) → Int → Option α
  | [], _ => none
  | (k, v) :: rest, p => if k = p then some v else lookupPM rest p

/-- Association-list insertion standing for a Go map assignment (overwrite
the key when present, append otherwise). -/
def mapInsert {α : Type} : List (Int × α) → Int → α → List (Int × α)
  | [], k, v => [(k, v)]
  | (k', v') :: rest, k, v =>
    if k' = k then (k, v) :: rest else (k', v') :: mapInsert rest k v

/-- The loop of `getPortMap` over the URLs persisted in `env.yaml`
(lines 321–340), threading the `portmap` and `namePortMapping` maps. -/
def getPortMapGo (endpoints : List Endpoint) :
    List LocalURL → List (Int × List PortBinding) → List (Int × String) →
    Except String (List (Int × List PortBinding) × List (Int × String))
  | [], pm, nm => .ok (pm, nm)
  | u :: rest, pm, nm =>
    if u.exposedPort > 0 ∧ IsPortPresent endpoints u.port = true then
      match newPort u.port with
      | .error e => .error e
      | .ok port =>
        getPortMapGo endpoints rest
          (mapInsert pm port [⟨LocalhostIP, toString u.exposedPort⟩])
          (mapInsert nm port u.name)
    else if u.exposedPort > 0 ∧ endpoints.length > 0 ∧ IsPortPresent endpoints u.port = false then
      .error "Error creating url: odo url config's port is not present in the devfile. Please re-create odo url with the new devfile port"
    else
      getPortMapGo endpoints rest pm nm

/-- `getPortMap` (lines 294–343) applied to the endpoints declared by the
component and the URL records read from `env.yaml`. -/
def getPortMap (endpoints : List Endpoint) (urls : List LocalURL) :
    Except String (List (Int × List PortBinding) × List (Int × String)) :=
  getPortMapGo endpoints urls [] []

/-! ### The adapter environment

Results of the external calls the adapter makes during one push.  Pure
external helpers (`DoesContainerNeedUpdating`, which compares desired and
actual container configuration, is defined outside `src/`) are oracles keyed
by the component alias. -/

/-- External call results consumed by `createComponent` / `updateComponent`
and the functions they call. -/
structure Env where
  genVolName : Except String String
  createVolumeRes : GoErr
  storageCreate : GoErr
  urlsResult : Except String (List LocalURL)
  containersFor : String → Except String (List ContainerInfo)
  getConfig : String → Except String Unit
  needsUpdate : String → Bool
  removeContainer : String → Except String Unit
  pullImage : String → Except String Unit
  getRunCommand : Except String Unit
  startContainer : String → Except String Unit

/-- Reading the URL records (`envinfo.NewEnvSpecificInfo(...).GetURL()`)
followed by the pure `getPortMap` loop; the source re-runs this both in the
one-container comparison branch (line 159) and inside
`generateAndGetHostConfig` (line 281). -/
def getPortMapE (env : Env) (endpoints : List Endpoint) :
    Except String (List (Int × List PortBinding) × List (Int × String)) :=
  match env.urlsResult with
  | .error e => .error e
  | .ok urls => getPortMap endpoints urls

/-- `startComponent` (lines 223–267): builds the host config (which runs
`getPortMap`), fetches the run command, assembles the container config (pure,
no runtime call) and issues `StartContainer`.  No image pull occurs here. -/
def startComponent (env : Env) (comp : DevfileComponent) : List Event × GoErr :=
  match getPortMapE env comp.endpoints with
  | .error e => ([], some e)
  | .ok _ =>
    match env.getRunCommand with
    | .error e => ([], some e)
    | .ok _ =>
      match env.startContainer comp.name with
      | .error e => ([.startContainer comp.name comp.image], some e)
      | .ok _ => ([.startContainer comp.name comp.image], none)

/-- `pullAndStartContainer` (lines 202–221): pull the image, then
`startComponent`. -/
def pullAndStartContainer (env : Env) (comp : DevfileComponent) : List Event × GoErr :=
  match env.pullImage comp.image with
  | .error e =>
    ([.pullImage comp.name comp.image], some ("Unable to pull " ++ comp.image ++ " image: " ++ e))
  | .ok _ =>
    match startComponent env comp with
    | (tr, some e) =>
      (.pullImage comp.name comp.image :: tr,
        some ("Unable to start container for devfile component " ++ comp.name ++ ": " ++ e))
    | (tr, none) => (.pullImage comp.name comp.image :: tr, none)

/-- Outcome of the project-source volume block of `createComponent`:
either continue with a volume name, or return from `createComponent` with the
given (possibly nil) error. -/
inductive VolOutcome where
  | ok (name : String)
  | exit (e : GoErr)
deriving DecidableEq, Repr

/-- The project-source volume block of `createComponent` (lines 38–58):
zero labelled volumes → generate a name and create one; one → reuse it;
more than one → return `errors.Wrapf(err, ...)` where `err` is nil at that
point, i.e. return a nil error. -/
def resolveVolume (env : Env) (componentName : String) (vols : List Volume) :
    List Volume × List Event × VolOutcome :=
  let projectVolumeLabels := GetProjectVolumeLabels componentName
  let projectVols := getVolumesByLabel vols projectVolumeLabels
  if projectVols.length = 0 then
    match env.genVolName with
    | .error e =>
      (vols, [],
        .exit (some ("Unable to generate project source volume name for component " ++
          componentName ++ ": " ++ e)))
    | .ok name =>
      match env.createVolumeRes with
      | some e =>
        (vols, [.createVolume name],
          .exit (some ("Unable to create project source volume for component " ++
            componentName ++ ": " ++ e)))
      | none => (createVolume vols name projectVolumeLabels, [.createVolume name], .ok name)
  else
    match projectVols with
    | [v] => (vols, [], .ok v.name)
    | _ =>
      (vols, [],
        .exit (wrapf none ("Error, multiple source volumes found for component " ++ componentName)))

/-- The container loop of `createComponent` (lines 72–88). -/
def createLoop (env : Env) : List DevfileComponent → List Event × GoErr
  | [] => ([], none)
  | comp :: rest =>
    match pullAndStartContainer env comp with
    | (tr, some e) =>
      (tr, some ("unable to pull and start container " ++ comp.name ++ ": " ++ e))
    | (tr, none) =>
      let next := createLoop env rest
      (tr ++ next.1, next.2)

/-- `createComponent` (lines 32–92): resolve the project-source volume, check
for declared components, run the storage adapter, then pull and start a
container per component. -/
def createComponent (env : Env) (componentName : String) (comps : List DevfileComponent)
    (vols : List Volume) : List Volume × List Event × GoErr :=
  match resolveVolume env componentName vols with
  | (vols', tr, .exit e) => (vols', tr, e)
  | (vols', tr, .ok _) =>
    if comps.length = 0 then (vols', tr, some "No valid components found in the devfile")
    else
      match env.storageCreate with
      | some e =>
        (vols', tr,
          some ("Unable to create Docker storage adapter for component " ++ componentName ++
            ": " ++ e))
      | none =>
        let next := createLoop env comps
        (vols', tr ++ next.1, next.2)

/-- Result of one iteration of the `updateComponent` container loop: continue
with the current `componentExists` flag, or return from `updateComponent`
with the given flag and error. -/
inductive StepRes where
  | cont (componentExists : Bool)
  | early (componentExists : Bool) (e : String)
deriving DecidableEq, Repr

/-- Result of the whole `updateComponent` container loop. -/
inductive LoopRes where
  | done (componentExists : Bool)
  | early (componentExists : Bool) (e : String)
deriving DecidableEq, Repr

/-- One iteration of the `updateComponent` loop (lines 121–197): list the
live containers for the alias; zero → pull+start (flag becomes false); one →
read its config and port map, and when `DoesContainerNeedUpdating` holds,
remove it and `startComponent` (no pull; flag becomes false); two or more →
return `(true, non-nil error)`. -/
def updateStep (env : Env) (comp : DevfileComponent) (ex : Bool) : List Event × StepRes :=
  match env.containersFor comp.name with
  | .error e => ([], .early false ("unable to list containers for component: " ++ e))
  | .ok [] =>
    match pullAndStartContainer env comp with
    | (tr, some e) =>
      (tr, .early false ("unable to pull and start container " ++ comp.name ++ ": " ++ e))
    | (tr, none) => (tr, .cont false)
  | .ok [c] =>
    match env.getConfig c.id with
    | .error e => ([], .early ex ("unable to get the container config: " ++ e))
    | .ok _ =>
      match getPortMapE env comp.endpoints with
      | .error e => ([], .early ex ("unable to get the port map from env.yaml file: " ++ e))
      | .ok _ =>
        if env.needsUpdate comp.name then
          match env.removeContainer c.id with
          | .error e =>
            ([.removeContainer comp.name c.id], .early ex ("Unable to remove container: " ++ e))
          | .ok _ =>
            match startComponent env comp with
            | (tr, some e) =>
              (.removeContainer comp.name c.id :: tr,
                .early false ("Unable to start container for devfile component " ++
                  comp.name ++ ": " ++ e))
            | (tr, none) => (.removeContainer comp.name c.id :: tr, .cont false)
        else ([], .cont ex)
  | .ok _ =>
    ([], .early true ("Found multiple running containers for devfile component " ++
      comp.name ++ " and cannot push changes"))

/-- The `updateComponent` container loop (lines 121–197). -/
def updateLoop (env : Env) : List DevfileComponent → Bool → List Event × LoopRes
  | [], ex => ([], .done ex)
  | comp :: rest, ex =>
    match updateStep env comp ex with
    | (tr, .early b e) => (tr, .early b e)
    | (tr, .cont ex') =>
      let next := updateLoop env rest ex'
      (tr ++ next.1, next.2)

/-- `updateComponent` (lines 94–200).  The storage adapter result at line 114
is assigned to the named return `err` and never checked; every later
assignment to `err` inside the loop shadows the named return, so on a loop
that completes without an early return the naked `return` at line 199 yields
the (unwrapped) storage error. -/
def updateComponent (env : Env) (componentName : String) (comps : List DevfileComponent)
    (vols : List Volume) : List Event × Bool × GoErr :=
  let volumeLabels := GetProjectVolumeLabels componentName
  let projectVols := getVolumesByLabel vols volumeLabels
  if projectVols.length = 0 then
    ([], true, some ("Unable to find source volume for component " ++ componentName))
  else if projectVols.length > 1 then
    ([], true, wrapf none ("Error, multiple source volumes found for component " ++ componentName))
  else
    let stoErr := env.storageCreate
    if comps.length = 0 then ([], true, some "No valid components found in the devfile")
    else
      match updateLoop env comps true with
      | (tr, .early b e) => (tr, b, some e)
      | (tr, .done b) => (tr, b, stoErr)

/-! ### The devfile command pipeline (`execDevfile`, lines 347–405) -/

/-- The fields of a `PushCommandsMap` entry the pipeline reads: command id,
target component alias, and the restart-required flag of the run group
(`common.IsRestartRequired`). -/
structure ExecCommand where
  id : String
  component : String
  restart : Bool
deriving DecidableEq, Repr

/-- `common.PushCommandsMap`, keyed by the three command group types. -/
structure PushCommandsMap where
  initCmd : Option ExecCommand
  buildCmd : Option ExecCommand
  runCmd : Option ExecCommand
deriving DecidableEq, Repr

/-- Number of entries of the commands map (`len(commandsMap)`). -/
def PushCommandsMap.size (m : PushCommandsMap) : Nat :=
  (if m.initCmd.isSome then 1 else 0) + (if m.buildCmd.isSome then 1 else 0) +
    (if m.runCmd.isSome then 1 else 0)

/-- Results of the in-container exec calls the pipeline issues, keyed by
command id (and, for supervisord initialization, by target alias). -/
structure ExecEnv where
  buildAction : String → Except String Unit
  supervisordStart : String → Except String Unit
  runAction : String → Except String Unit
  runActionNoRestart : String → Except String Unit

/-- One blocking exec stage: record the call, surface its result. -/
def execStage (res : Except String Unit) (ev : Event) : List Event × GoErr :=
  match res with
  | .error e => ([ev], some e)
  | .ok _ => ([ev], none)

/-- Sequencing of pipeline stages: short-circuit on the first failure. -/
def stageSeq (a : List Event × GoErr) (b : List Event × GoErr) : List Event × GoErr :=
  match a with
  | (tr, some e) => (tr, some e)
  | (tr, none) => (tr ++ b.1, b.2)

/-- The init stage (lines 355–367): only runs when the component does not
already exist and an init command is declared. -/
def initStage (eenv : ExecEnv) (cmds : PushCommandsMap) (componentExists : Bool) :
    List Event × GoErr :=
  if componentExists then ([], none)
  else
    match cmds.initCmd with
    | none => ([], none)
    | some c => execStage (eenv.buildAction c.id) (.execInit c.id)

/-- The build stage (lines 369–378). -/
def buildStage (eenv : ExecEnv) (cmds : PushCommandsMap) : List Event × GoErr :=
  match cmds.buildCmd with
  | none => ([], none)
  | some c => execStage (eenv.buildAction c.id) (.execBuild c.id)

/-- The run stage (lines 380–402): supervisord initialization when the
component is fresh, then the run action with or without restart. -/
def runStage (eenv : ExecEnv) (cmds : PushCommandsMap) (componentExists : Bool) :
    List Event × GoErr :=
  match cmds.runCmd with
  | none => ([], none)
  | some c =>
    stageSeq
      (if componentExists then ([], none)
       else execStage (eenv.supervisordStart c.component) (.supervisordInit c.component))
      (if componentExists ∧ c.restart = false then
        execStage (eenv.runActionNoRestart c.id) (.execRunNoRestart c.id)
      else execStage (eenv.runAction c.id) (.execRun c.id))

/-- `execDevfile` (lines 347–405): fail on an empty commands map, then run
init (only when the component is fresh), build, and run in order, stopping at
the first failing stage. -/
def execDevfile (eenv : ExecEnv) (cmds : PushCommandsMap) (componentExists : Bool) :
    List Event × GoErr :=
  if cmds.size = 0 then
    ([], some "error executing devfile commands - there should be at least 1 command")
  else
    stageSeq (initStage eenv cmds componentExists)
      (stageSeq (buildStage eenv cmds) (runStage eenv cmds componentExists))

/-- Modelled from the spec: the push driver (the adapter's `Push`, a caller
of these functions that is not under `src/`) runs reconciliation —
`updateComponent` when the component already exists — and executes the
devfile command pipeline only when reconciliation returned a nil error,
passing it the resulting `componentExists` flag. -/
def push (env : Env) (eenv : ExecEnv) (componentName : String)
    (comps : List DevfileComponent) (vols : List Volume) (cmds : PushCommandsMap) :
    List Event × GoErr :=
  match updateComponent env componentName comps vols with
  | (tr, _, some e) => (tr, some e)
  | (tr, ex, none) =>
    let next := execDevfile eenv cmds ex
    (tr ++ next.1, next.2)

/-! ### Small helpers and concrete fixtures used by theorems below -/

/-- The Go error value returned by a blocking exec call. -/
def errOf : Except String Unit → GoErr
  | .ok _ => none
  | .error e => some e

/-- Event classifier: any mutation of runtime resources (volume creation,
image pull, container remove or create+start). -/
def Event.isRuntimeMutation : Event → Bool
  | .createVolume _ => true
  | .pullImage _ _ => true
  | .removeContainer _ _ => true
  | .startContainer _ _ => true
  | _ => false

/-- Fixture: an adapter environment in which every external call succeeds;
one live container `cid` per alias, whose configuration differs from the
desired one (`needsUpdate` = true). -/
def envStale : Env :=
  { genVolName := .ok "odo-project-source-comp-vgen"
    createVolumeRes := none
    storageCreate := none
    urlsResult := .ok []
    containersFor := fun _ => .ok [⟨"cid"⟩]
    getConfig := fun _ => .ok ()
    needsUpdate := fun _ => true
    removeContainer := fun _ => .ok ()
    pullImage := fun _ => .ok ()
    getRunCommand := .ok ()
    startContainer := fun _ => .ok () }

/-- Fixture: a project-source volume labelled for component `comp`. -/
def volC : Volume := ⟨"srcvol", GetProjectVolumeLabels "comp"⟩

/-- Fixture: a second project-source volume with the identical label set. -/
def volC2 : Volume := ⟨"srcvol2", GetProjectVolumeLabels "comp"⟩

/-- Fixture: a devfile component with alias `web` and image `img`. -/
def compC : DevfileComponent := ⟨"web", "img", []⟩

/-- Fixture: an exec environment in which every in-container action
succeeds. -/
def eenvAllOk : ExecEnv :=
  ⟨fun _ => .ok (), fun _ => .ok (), fun _ => .ok (), fun _ => .ok ()⟩

/-- Fixture: like `envStale`, but the live container already matches its
desired configuration. -/
def envClean : Env :=
  { envStale with needsUpdate := fun _ => false }

/-- Fixture: like `envStale`, but the runtime lists two live containers for
every alias. -/
def envMulti : Env :=
  { envStale with containersFor := fun _ => .ok [⟨"c1"⟩, ⟨"c2"⟩] }

/-- Fixture: like `envStale`, but the storage adapter's `Create` fails. -/
def envStorageErr : Env :=
  { envStale with storageCreate := some "disk full" }

end Odo



namespace Odo

/-! ### Map lemmas -/

/-- Looking up the key just inserted yields the inserted value. -/
theorem lookupPM_mapInsert_self {α : Type} (m : List (Int × α)) (k : Int) (v : α) :
    lookupPM (mapInsert m k v) k = some v := by
  induction m with
  | nil => simp [mapInsert, lookupPM]
  | cons hd t ih =>
    obtain ⟨k', v'⟩ := hd
    by_cases hk : k' = k
    · simp [mapInsert, hk, lookupPM]
    · simp [mapInsert, hk, lookupPM, ih]

/-- Inserting one key leaves lookups of other keys unchanged. -/
theorem lookupPM_mapInsert_ne {α : Type} (m : List (Int × α)) (k p : Int) (v : α)
    (h : k ≠ p) : lookupPM (mapInsert m k v) p = lookupPM m p := by
  induction m with
  | nil => simp [mapInsert, lookupPM, h]
  | cons hd t ih =>
    obtain ⟨k', v'⟩ := hd
    by_cases hk : k' = k
    · subst hk
      rw [mapInsert, if_pos rfl]
      simp only [lookupPM]
      rw [if_neg h, if_neg h]
    · by_cases hp : k' = p
      · rw [mapInsert, if_neg hk]
        simp only [lookupPM]
        rw [if_pos hp, if_pos hp]
      · rw [mapInsert, if_neg hk]
        simp only [lookupPM]
        rw [if_neg hp, if_neg hp]
        exact ih

/-! ### Port mapper lemmas -/

/-- If some URL with a positive exposed port misses the (non-empty) declared
endpoints, the port-map loop fails, whatever the accumulators hold. -/
theorem getPortMapGo_error (endpoints : List Endpoint) (urls : List LocalURL)
    (hbad : ∃ u ∈ urls, u.exposedPort > 0 ∧ endpoints.length > 0 ∧
      IsPortPresent endpoints u.port = false) :
    ∀ pm nm, ∃ e, getPortMapGo endpoints urls pm nm = .error e := by
  induction urls with
  | nil => simp at hbad
  | cons u rest ih =>
    intro pm nm
    obtain ⟨w, hw, hw1, hw2, hw3⟩ := hbad
    by_cases h1 : u.exposedPort > 0 ∧ IsPortPresent endpoints u.port = true
    · have hwrest : w ∈ rest := by
        rcases List.mem_cons.1 hw with hwu | hwr
        · subst hwu; rw [hw3] at h1; exact absurd h1.2 (by simp)
        · exact hwr
      rw [getPortMapGo, if_pos h1]
      cases hnp : newPort u.port with
      | error e => exact ⟨e, rfl⟩
      | ok port => exact ih ⟨w, hwrest, hw1, hw2, hw3⟩ _ _
    · by_cases h2 : u.exposedPort > 0 ∧ endpoints.length > 0 ∧
        IsPortPresent endpoints u.port = false
      · rw [getPortMapGo, if_neg h1, if_pos h2]
        exact ⟨_, rfl⟩
      · have hwrest : w ∈ rest := by
          rcases List.mem_cons.1 hw with hwu | hwr
          · subst hwu; exact absurd ⟨hw1, hw2, hw3⟩ h2
          · exact hwr
        rw [getPortMapGo, if_neg h1, if_neg h2]
        exact ih ⟨w, hwrest, hw1, hw2, hw3⟩ _ _

/-- With an empty endpoint list every URL is skipped and the loop returns its
accumulators unchanged. -/
theorem getPortMapGo_empty_endpoints (urls : List LocalURL) :
    ∀ pm nm, getPortMapGo [] urls pm nm = .ok (pm, nm) := by
  induction urls with
  | nil => intro pm nm; rfl
  | cons u rest ih =>
    intro pm nm
    have hp : IsPortPresent [] u.port = false := rfl
    rw [getPortMapGo, if_neg (by simp [hp]), if_neg (by simp), ih]

/-- Success characterization of the port-map loop: when no URL is stale (and
matched ports are in range), the loop succeeds; ports untouched by the URL
list keep their accumulator value, and under pairwise-distinct container
ports each matched URL is bound to loopback at its exposed port with its name
label. -/
theorem getPortMapGo_ok (endpoints : List Endpoint) (urls : List LocalURL)
    (hval : ∀ u ∈ urls, u.exposedPort > 0 → IsPortPresent endpoints u.port = true →
      0 ≤ u.port ∧ u.port ≤ 65535)
    (hnomiss : ∀ u ∈ urls, u.exposedPort > 0 → endpoints.length > 0 →
      IsPortPresent endpoints u.port = true) :
    ∀ pm nm, ∃ pm' nm', getPortMapGo endpoints urls pm nm = .ok (pm', nm') ∧
      (∀ p : Int,
        (∀ u ∈ urls, u.exposedPort > 0 → IsPortPresent endpoints u.port = true → u.port ≠ p) →
        lookupPM pm' p = lookupPM pm p ∧ lookupPM nm' p = lookupPM nm p) ∧
      (List.Pairwise (fun a b => a.port ≠ b.port) urls →
        ∀ u ∈ urls, u.exposedPort > 0 → IsPortPresent endpoints u.port = true →
          lookupPM pm' u.port = some [⟨LocalhostIP, toString u.exposedPort⟩] ∧
          lookupPM nm' u.port = some u.name) := by
  induction urls with
  | nil =>
    intro pm nm
    exact ⟨pm, nm, rfl, fun p _ => ⟨rfl, rfl⟩, fun _ u hu => absurd hu (List.not_mem_nil u)⟩
  | cons u rest ih =>
    intro pm nm
    have hvalrest : ∀ v ∈ rest, v.exposedPort > 0 → IsPortPresent endpoints v.port = true →
        0 ≤ v.port ∧ v.port ≤ 65535 := fun v hv => hval v (List.mem_cons_of_mem u hv)
    have hnomissrest : ∀ v ∈ rest, v.exposedPort > 0 → endpoints.length > 0 →
        IsPortPresent endpoints v.port = true := fun v hv => hnomiss v (List.mem_cons_of_mem u hv)
    by_cases h1 : u.exposedPort > 0 ∧ IsPortPresent endpoints u.port = true
    · have hb := hval u (List.mem_cons_self u rest) h1.1 h1.2
      have hnp : newPort u.port = .ok u.port := by rw [newPort, if_pos hb]
      obtain ⟨pm', nm', heq, hunch, hmain⟩ := ih hvalrest hnomissrest
        (mapInsert pm u.port [⟨LocalhostIP, toString u.exposedPort⟩])
        (mapInsert nm u.port u.name)
      refine ⟨pm', nm', ?_, ?_, ?_⟩
      · rw [getPortMapGo, if_pos h1, hnp]
        exact heq
      · intro p hp
        have hup : u.port ≠ p := hp u (List.mem_cons_self u rest) h1.1 h1.2
        have hrest : ∀ v ∈ rest, v.exposedPort > 0 →
            IsPortPresent endpoints v.port = true → v.port ≠ p :=
          fun v hv => hp v (List.mem_cons_of_mem u hv)
        obtain ⟨h'1, h'2⟩ := hunch p hrest
        exact ⟨h'1.trans (lookupPM_mapInsert_ne _ _ _ _ hup),
          h'2.trans (lookupPM_mapInsert_ne _ _ _ _ hup)⟩
      · intro hpw w hw hw1 hw2
        rw [List.pairwise_cons] at hpw
        rcases List.mem_cons.1 hw with hwu | hwr
        · subst hwu
          have hrest : ∀ v ∈ rest, v.exposedPort > 0 →
              IsPortPresent endpoints v.port = true → v.port ≠ w.port :=
            fun v hv _ _ => (hpw.1 v hv).symm
          obtain ⟨h'1, h'2⟩ := hunch w.port hrest
          exact ⟨h'1.trans (lookupPM_mapInsert_self _ _ _),
            h'2.trans (lookupPM_mapInsert_self _ _ _)⟩
        · exact hmain hpw.2 w hwr hw1 hw2
    · by_cases h2 : u.exposedPort > 0 ∧ endpoints.length > 0 ∧
        IsPortPresent endpoints u.port = false
      · have := hnomiss u (List.mem_cons_self u rest) h2.1 h2.2.1
        rw [this] at h2
        exact absurd h2.2.2 (by simp)
      · obtain ⟨pm', nm', heq, hunch, hmain⟩ := ih hvalrest hnomissrest pm nm
        refine ⟨pm', nm', ?_, ?_, ?_⟩
        · rw [getPortMapGo, if_neg h1, if_neg h2, heq]
        · intro p hp
          exact hunch p (fun v hv => hp v (List.mem_cons_of_mem u hv))
        · intro hpw w hw hw1 hw2
          rw [List.pairwise_cons] at hpw
          rcases List.mem_cons.1 hw with hwu | hwr
          · subst hwu; exact absurd ⟨hw1, hw2⟩ h1
          · exact hmain hpw.2 w hwr hw1 hw2

/-- A URL whose exposed port is not positive takes neither branch of the
loop: the result is as if it were absent from the URL list. -/
theorem getPortMapGo_skip_nonpositive (endpoints : List Endpoint) (u : LocalURL)
    (h : u.exposedPort ≤ 0) (suf : List LocalURL) :
    ∀ pre pm nm, getPortMapGo endpoints (pre ++ u :: suf) pm nm =
      getPortMapGo endpoints (pre ++ suf) pm nm := by
  intro pre
  induction pre with
  | nil =>
    intro pm nm
    have hnpos : ¬ u.exposedPort > 0 := by omega
    rw [List.nil_append, List.nil_append, getPortMapGo,
      if_neg (fun hc => hnpos hc.1), if_neg (fun hc => hnpos hc.1)]
  | cons v pre' ih =>
    intro pm nm
    rw [List.cons_append, List.cons_append, getPortMapGo, getPortMapGo]
    by_cases h1 : v.exposedPort > 0 ∧ IsPortPresent endpoints v.port = true
    · rw [if_pos h1, if_pos h1]
      cases hnp : newPort v.port with
      | error e => rfl
      | ok port => exact ih _ _
    · by_cases h2 : v.exposedPort > 0 ∧ endpoints.length > 0 ∧
        IsPortPresent endpoints v.port = false
      · rw [if_neg h1, if_pos h2, if_neg h1, if_pos h2]
      · rw [if_neg h1, if_neg h2, if_neg h1, if_neg h2]
        exact ih _ _

end Odo

namespace Odo

/-- C4: for every call to the port mapper with declared endpoints and
persisted exposed URLs: if some exposed URL with a positive exposed port
matches no declared endpoint while the endpoint list is non-empty, the mapper
fails with an error and returns no partial map; otherwise (matched ports in
range and container ports pairwise distinct) the mapper succeeds and each
exposed URL with a positive exposed port whose container port matches a
declared endpoint yields exactly one binding of its container port to
127.0.0.1 at its exposed port plus a port-to-name label; and with an empty
endpoint list unmatched URLs are silently ignored and the mapper succeeds. -/
theorem C4_port_mapper (endpoints : List Endpoint) (urls : List LocalURL) :
    ((∃ u ∈ urls, u.exposedPort > 0 ∧ endpoints ≠ [] ∧
        IsPortPresent endpoints u.port = false) →
      ∃ e, getPortMap endpoints urls = .error e) ∧
    ((∀ u ∈ urls, u.exposedPort > 0 → IsPortPresent endpoints u.port = true →
        0 ≤ u.port ∧ u.port ≤ 65535) →
     (∀ u ∈ urls, u.exposedPort > 0 → endpoints ≠ [] →
        IsPortPresent endpoints u.port = true) →
     List.Pairwise (fun a b => a.port ≠ b.port) urls →
      ∃ pm nm, getPortMap endpoints urls = .ok (pm, nm) ∧
        ∀ u ∈ urls, u.exposedPort > 0 → IsPortPresent endpoints u.port = true →
          lookupPM pm u.port = some [⟨LocalhostIP, toString u.exposedPort⟩] ∧
          lookupPM nm u.port = some u.name) ∧
    (endpoints = [] → getPortMap endpoints urls = .ok ([], [])) := by
  refine ⟨?_, ?_, ?_⟩
  · rintro ⟨u, hu, h1, h2, h3⟩
    exact getPortMapGo_error endpoints urls ⟨u, hu, h1, List.length_pos.2 h2, h3⟩ [] []
  · intro hval hnomiss hpw
    have hnomiss' : ∀ u ∈ urls, u.exposedPort > 0 → endpoints.length > 0 →
        IsPortPresent endpoints u.port = true :=
      fun u hu h1 h2 => hnomiss u hu h1 (List.length_pos.1 h2)
    obtain ⟨pm', nm', heq, _, hmain⟩ := getPortMapGo_ok endpoints urls hval hnomiss' [] []
    exact ⟨pm', nm', heq, hmain hpw⟩
  · intro h
    subst h
    exact getPortMapGo_empty_endpoints urls [] []

/-- Witness for C4 at the spec's §8 example inputs: endpoint 8080 with
exposed URL (app, 8080, 20001) binds; a stale URL at 9090 fails. -/
theorem C4_port_mapper_witness :
    (∃ pm nm, getPortMap [⟨"app", 8080⟩] [⟨"app", 8080, 20001⟩] = .ok (pm, nm) ∧
      ∀ u ∈ [(⟨"app", 8080, 20001⟩ : LocalURL)], u.exposedPort > 0 →
        IsPortPresent [⟨"app", 8080⟩] u.port = true →
          lookupPM pm u.port = some [⟨LocalhostIP, toString u.exposedPort⟩] ∧
          lookupPM nm u.port = some u.name) ∧
    (∃ e, getPortMap [⟨"app", 8080⟩] [⟨"x", 9090, 20002⟩] = .error e) := by
  constructor
  · exact (C4_port_mapper [⟨"app", 8080⟩] [⟨"app", 8080, 20001⟩]).2.1
      (by decide) (by decide) (by decide)
  · exact (C4_port_mapper [⟨"app", 8080⟩] [⟨"x", 9090, 20002⟩]).1
      ⟨⟨"x", 9090, 20002⟩, by decide, by decide, by simp, by decide⟩

/-- C9: an exposed URL whose exposed port is not positive is skipped entirely
by the port mapper: the result is identical to the mapper's result on the URL
list without it, so it yields no port binding and no name label, and it never
causes a port-mapping failure, even when its container port matches no
declared endpoint and the declared endpoint list is non-empty. -/
theorem C9_nonpositive_url_skipped (endpoints : List Endpoint) (pre suf : List LocalURL)
    (u : LocalURL) (h : u.exposedPort ≤ 0) :
    getPortMap endpoints (pre ++ u :: suf) = getPortMap endpoints (pre ++ suf) :=
  getPortMapGo_skip_nonpositive endpoints u h suf pre [] []

/-- Witness for C9: a URL with exposed port 0, whose container port 9090 is
absent from the non-empty endpoint list, neither binds nor fails. -/
theorem C9_witness :
    (⟨"x", 9090, 0⟩ : LocalURL).exposedPort ≤ 0 ∧
    getPortMap [⟨"app", 8080⟩] ([] ++ (⟨"x", 9090, 0⟩ : LocalURL) :: [⟨"app", 8080, 20001⟩]) =
      getPortMap [⟨"app", 8080⟩] ([] ++ [⟨"app", 8080, 20001⟩]) :=
  ⟨by decide,
    C9_nonpositive_url_skipped [⟨"app", 8080⟩] [] [⟨"app", 8080, 20001⟩] ⟨"x", 9090, 0⟩
      (by decide)⟩

end Odo

namespace Odo

/-! ### Command pipeline lemmas -/

/-- An exec stage records exactly its event and surfaces its call result. -/
theorem execStage_eq (res : Except String Unit) (ev : Event) :
    execStage res ev = ([ev], errOf res) := by
  cases res <;> rfl

/-- Events of a stage sequence come from one of the two stages. -/
theorem stageSeq_fst_subset {ev : Event} {a b : List Event × GoErr}
    (h : ev ∈ (stageSeq a b).1) : ev ∈ a.1 ∨ ev ∈ b.1 := by
  obtain ⟨tra, ea⟩ := a
  cases ea with
  | some e => exact Or.inl h
  | none =>
    simp only [stageSeq] at h
    rcases List.mem_append.1 h with h1 | h2
    · exact Or.inl h1
    · exact Or.inr h2

/-- The build stage never records an init execution. -/
theorem buildStage_no_execInit (eenv : ExecEnv) (cmds : PushCommandsMap) (j : String) :
    Event.execInit j ∉ (buildStage eenv cmds).1 := by
  cases hc : cmds.buildCmd with
  | none => simp [buildStage, hc]
  | some c => simp [buildStage, hc, execStage_eq]

/-- The run stage never records an init execution. -/
theorem runStage_no_execInit (eenv : ExecEnv) (cmds : PushCommandsMap) (ce : Bool) (j : String) :
    Event.execInit j ∉ (runStage eenv cmds ce).1 := by
  intro hmem
  cases hc : cmds.runCmd with
  | none => simp only [runStage, hc] at hmem; simp at hmem
  | some c =>
    simp only [runStage, hc] at hmem
    rcases stageSeq_fst_subset hmem with h1 | h1
    · by_cases hce : ce = true
      · rw [if_pos hce] at h1
        simp at h1
      · rw [if_neg hce, execStage_eq] at h1
        simp at h1
    · by_cases hcr : ce = true ∧ c.restart = false
      · rw [if_pos hcr, execStage_eq] at h1
        simp at h1
      · rw [if_neg hcr, execStage_eq] at h1
        simp at h1

/-- C5: for every command map containing Init, Build and Run commands: the
pipeline with an empty command map fails immediately; with componentExists =
false it executes Init, then Build, then the Run supervisor-initialization,
then Run, in that order, stopping at the first failing stage; and with
componentExists = true the Init command is never executed. -/
theorem C5_pipeline_order (eenv : ExecEnv) (i b r : ExecCommand) :
    (∀ ce : Bool, (execDevfile eenv ⟨none, none, none⟩ ce).2.isSome = true) ∧
    (∀ e, eenv.buildAction i.id = .error e →
      execDevfile eenv ⟨some i, some b, some r⟩ false = ([.execInit i.id], some e)) ∧
    (∀ e, eenv.buildAction i.id = .ok () → eenv.buildAction b.id = .error e →
      execDevfile eenv ⟨some i, some b, some r⟩ false =
        ([.execInit i.id, .execBuild b.id], some e)) ∧
    (∀ e, eenv.buildAction i.id = .ok () → eenv.buildAction b.id = .ok () →
      eenv.supervisordStart r.component = .error e →
      execDevfile eenv ⟨some i, some b, some r⟩ false =
        ([.execInit i.id, .execBuild b.id, .supervisordInit r.component], some e)) ∧
    (eenv.buildAction i.id = .ok () → eenv.buildAction b.id = .ok () →
      eenv.supervisordStart r.component = .ok () →
      execDevfile eenv ⟨some i, some b, some r⟩ false =
        ([.execInit i.id, .execBuild b.id, .supervisordInit r.component, .execRun r.id],
          errOf (eenv.runAction r.id))) ∧
    (∀ cmds : PushCommandsMap, ∀ j, Event.execInit j ∉ (execDevfile eenv cmds true).1) := by
  refine ⟨?_, ?_, ?_, ?_, ?_, ?_⟩
  · intro ce
    simp [execDevfile, PushCommandsMap.size]
  · intro e he
    simp [execDevfile, PushCommandsMap.size, initStage, stageSeq, execStage, he]
  · intro e h1 h2
    simp [execDevfile, PushCommandsMap.size, initStage, buildStage, stageSeq, execStage, h1, h2]
  · intro e h1 h2 h3
    simp [execDevfile, PushCommandsMap.size, initStage, buildStage, runStage, stageSeq,
      execStage, h1, h2, h3]
  · intro h1 h2 h3
    cases hra : eenv.runAction r.id <;>
      simp [execDevfile, PushCommandsMap.size, initStage, buildStage, runStage, stageSeq,
        execStage, errOf, h1, h2, h3, hra]
  · intro cmds j hmem
    by_cases hsize : cmds.size = 0
    · rw [execDevfile, if_pos hsize] at hmem
      simp at hmem
    · rw [execDevfile, if_neg hsize] at hmem
      have hinit : initStage eenv cmds true = ([], none) := by simp [initStage]
      rw [hinit] at hmem
      rcases stageSeq_fst_subset hmem with h1 | h1
      · simp at h1
      · rcases stageSeq_fst_subset h1 with h2 | h2
        · exact buildStage_no_execInit eenv cmds j h2
        · exact runStage_no_execInit eenv cmds true j h2

/-- Witness for C5: with every action succeeding, the fresh-component
pipeline runs Init, Build, supervisord initialization and Run in order. -/
theorem C5_witness :
    execDevfile eenvAllOk
      ⟨some ⟨"i", "web", true⟩, some ⟨"b", "web", true⟩, some ⟨"r", "web", true⟩⟩ false =
      ([.execInit "i", .execBuild "b", .supervisordInit "web", .execRun "r"], none) := by
  have h := (C5_pipeline_order eenvAllOk ⟨"i", "web", true⟩ ⟨"b", "web", true⟩
    ⟨"r", "web", true⟩).2.2.2.2.1 rfl rfl rfl
  simpa [eenvAllOk, errOf] using h

end Odo

namespace Odo

/-- Sequencing after a successful stage concatenates traces and surfaces the
second stage's result. -/
theorem stageSeq_none {a : List Event × GoErr} (b : List Event × GoErr) (h : a.2 = none) :
    stageSeq a b = (a.1 ++ b.1, b.2) := by
  obtain ⟨tra, ea⟩ := a
  cases ea with
  | some e => simp at h
  | none => rfl

/-- The trace of the build stage: empty, or the single build execution. -/
theorem buildStage_cases (eenv : ExecEnv) (cmds : PushCommandsMap) :
    (buildStage eenv cmds).1 = [] ∨
      ∃ c, cmds.buildCmd = some c ∧ (buildStage eenv cmds).1 = [Event.execBuild c.id] := by
  cases hc : cmds.buildCmd with
  | none => exact Or.inl (by simp [buildStage, hc])
  | some c => exact Or.inr ⟨c, rfl, by simp [buildStage, hc, execStage_eq]⟩

/-- C6: for every pipeline invocation with a declared Run command whose
earlier stages succeed: if componentExists is true and the Run command's
restart-required flag is false, the run action is executed in no-restart mode
and the pipeline returns without any runtime mutation, supervisor
initialization or full-restart run action; in every other case
(componentExists false, or restart flag true) the full-restart run action is
executed. -/
theorem C6_run_restart (eenv : ExecEnv) (cmds : PushCommandsMap) (r : ExecCommand)
    (hr : cmds.runCmd = some r)
    (hinit : ∀ c, cmds.initCmd = some c → eenv.buildAction c.id = .ok ())
    (hbuild : ∀ c, cmds.buildCmd = some c → eenv.buildAction c.id = .ok ())
    (hsup : eenv.supervisordStart r.component = .ok ()) :
    (r.restart = false →
      (execDevfile eenv cmds true).1 =
        (buildStage eenv cmds).1 ++ [Event.execRunNoRestart r.id] ∧
      (execDevfile eenv cmds true).2 = errOf (eenv.runActionNoRestart r.id) ∧
      ∀ ev ∈ (execDevfile eenv cmds true).1,
        ev.isRuntimeMutation = false ∧ ev ≠ Event.supervisordInit r.component ∧
        ev ≠ Event.execRun r.id) ∧
    (∀ ce : Bool, ce = false ∨ r.restart = true →
      Event.execRun r.id ∈ (execDevfile eenv cmds ce).1) := by
  have hsz : ¬ cmds.size = 0 := by simp [PushCommandsMap.size, hr]
  have hb2 : (buildStage eenv cmds).2 = none := by
    cases hc : cmds.buildCmd with
    | none => simp [buildStage, hc]
    | some c => simp [buildStage, hc, execStage_eq, hbuild c hc, errOf]
  constructor
  · intro hrestart
    have hi : initStage eenv cmds true = ([], none) := by simp [initStage]
    have hrun : runStage eenv cmds true =
        ([Event.execRunNoRestart r.id], errOf (eenv.runActionNoRestart r.id)) := by
      simp [runStage, hr, stageSeq, execStage_eq, hrestart]
    have heq : execDevfile eenv cmds true =
        ((buildStage eenv cmds).1 ++ [Event.execRunNoRestart r.id],
          errOf (eenv.runActionNoRestart r.id)) := by
      rw [execDevfile, if_neg hsz, hi, stageSeq_none _ rfl, stageSeq_none _ hb2, hrun]
      simp
    refine ⟨by rw [heq], by rw [heq], ?_⟩
    intro ev hev
    rw [heq] at hev
    rcases List.mem_append.1 hev with h1 | h1
    · rcases buildStage_cases eenv cmds with hb | ⟨c, hc, hb⟩
      · rw [hb] at h1
        simp at h1
      · rw [hb] at h1
        simp at h1
        subst h1
        simp [Event.isRuntimeMutation]
    · simp at h1
      subst h1
      simp [Event.isRuntimeMutation]
  · intro ce hce
    cases ce with
    | false =>
      have hi2 : (initStage eenv cmds false).2 = none := by
        cases hc : cmds.initCmd with
        | none => simp [initStage, hc]
        | some c => simp [initStage, hc, execStage_eq, hinit c hc, errOf]
      have hrun : runStage eenv cmds false =
          ([Event.supervisordInit r.component, Event.execRun r.id],
            errOf (eenv.runAction r.id)) := by
        simp [runStage, hr, stageSeq, execStage_eq, hsup, errOf]
      rw [execDevfile, if_neg hsz, stageSeq_none _ hi2, stageSeq_none _ hb2, hrun]
      simp
    | true =>
      have hrt : r.restart = true := by
        rcases hce with h | h
        · simp at h
        · exact h
      have hi : initStage eenv cmds true = ([], none) := by simp [initStage]
      have hrun : runStage eenv cmds true =
          ([Event.execRun r.id], errOf (eenv.runAction r.id)) := by
        simp [runStage, hr, stageSeq, execStage_eq, hrt]
      rw [execDevfile, if_neg hsz, hi, stageSeq_none _ rfl, stageSeq_none _ hb2, hrun]
      simp

/-- Witness for C6: with an existing component and restart flag false the
pipeline hot-reloads with the no-restart action; the same command map with a
fresh component executes the full-restart run action. -/
theorem C6_witness :
    (execDevfile eenvAllOk ⟨none, none, some ⟨"r", "web", false⟩⟩ true).1 =
      (buildStage eenvAllOk ⟨none, none, some ⟨"r", "web", false⟩⟩).1 ++
        [Event.execRunNoRestart "r"] ∧
    Event.execRun "r" ∈ (execDevfile eenvAllOk ⟨none, none, some ⟨"r", "web", false⟩⟩ false).1 := by
  have h := C6_run_restart eenvAllOk ⟨none, none, some ⟨"r", "web", false⟩⟩ ⟨"r", "web", false⟩
    rfl (fun c hc => by cases hc) (fun c hc => by cases hc) rfl
  exact ⟨(h.1 rfl).1, h.2 false (Or.inl rfl)⟩

end Odo

namespace Odo

/-! ### Reconciler loop lemmas -/

/-- Every event of `startComponent` is the start of this component's
container. -/
theorem startComponent_fst_sub (env : Env) (comp : DevfileComponent) :
    ∀ ev ∈ (startComponent env comp).1, ev = Event.startContainer comp.name comp.image := by
  intro ev hev
  unfold startComponent at hev
  cases hpm : getPortMapE env comp.endpoints with
  | error e => rw [hpm] at hev; simp at hev
  | ok x =>
    rw [hpm] at hev
    cases hrc : env.getRunCommand with
    | error e => rw [hrc] at hev; simp at hev
    | ok y =>
      rw [hrc] at hev
      cases hsc : env.startContainer comp.name with
      | error e => rw [hsc] at hev; simpa using hev
      | ok z => rw [hsc] at hev; simpa using hev

/-- Every event of `pullAndStartContainer` is the pull or the start of this
component's container. -/
theorem pullAndStartContainer_fst_sub (env : Env) (comp : DevfileComponent) :
    ∀ ev ∈ (pullAndStartContainer env comp).1,
      ev = Event.pullImage comp.name comp.image ∨
        ev = Event.startContainer comp.name comp.image := by
  intro ev hev
  unfold pullAndStartContainer at hev
  cases hp : env.pullImage comp.image with
  | error e =>
    rw [hp] at hev
    simp at hev
    exact Or.inl hev
  | ok x =>
    rw [hp] at hev
    rcases hs : startComponent env comp with ⟨tr, res⟩
    rw [hs] at hev
    cases res with
    | some e =>
      simp at hev
      rcases hev with h | h
      · exact Or.inl h
      · exact Or.inr (startComponent_fst_sub env comp ev (by rw [hs]; exact h))
    | none =>
      simp at hev
      rcases hev with h | h
      · exact Or.inl h
      · exact Or.inr (startComponent_fst_sub env comp ev (by rw [hs]; exact h))

/-- Every event of one reconcile iteration is a pull, start or remove issued
for this component's alias. -/
theorem updateStep_fst_sub (env : Env) (comp : DevfileComponent) (ex : Bool) :
    ∀ ev ∈ (updateStep env comp ex).1,
      ev = Event.pullImage comp.name comp.image ∨
        ev = Event.startContainer comp.name comp.image ∨
        ∃ id, ev = Event.removeContainer comp.name id := by
  intro ev hev
  unfold updateStep at hev
  split at hev
  · simp at hev
  · split at hev
    · rename_i tr e heq
      exact (pullAndStartContainer_fst_sub env comp ev (by rw [heq]; exact hev)).imp id Or.inl
    · rename_i tr heq
      exact (pullAndStartContainer_fst_sub env comp ev (by rw [heq]; exact hev)).imp id Or.inl
  · rename_i c heqc
    split at hev
    · simp at hev
    · split at hev
      · simp at hev
      · split at hev
        · split at hev
          · simp at hev
            exact Or.inr (Or.inr ⟨c.id, hev⟩)
          · split at hev
            · rename_i tr e heq
              simp at hev
              rcases hev with h | h
              · exact Or.inr (Or.inr ⟨c.id, h⟩)
              · exact Or.inr (Or.inl (startComponent_fst_sub env comp ev (by rw [heq]; exact h)))
            · rename_i tr heq
              simp at hev
              rcases hev with h | h
              · exact Or.inr (Or.inr ⟨c.id, h⟩)
              · exact Or.inr (Or.inl (startComponent_fst_sub env comp ev (by rw [heq]; exact h)))
        · simp at hev
  · simp at hev

/-- Every event of the reconcile loop is a pull, start or remove issued for
the alias of one of the looped-over components. -/
theorem updateLoop_fst_sub (env : Env) :
    ∀ comps ex, ∀ ev ∈ (updateLoop env comps ex).1,
      ∃ c ∈ comps, ev = Event.pullImage c.name c.image ∨
        ev = Event.startContainer c.name c.image ∨
        ∃ id, ev = Event.removeContainer c.name id := by
  intro comps
  induction comps with
  | nil => intro ex ev hev; simp [updateLoop] at hev
  | cons comp rest ih =>
    intro ex ev hev
    rw [updateLoop] at hev
    rcases hs : updateStep env comp ex with ⟨tr, res⟩
    rw [hs] at hev
    cases res with
    | early b e =>
      exact ⟨comp, List.mem_cons_self comp rest,
        updateStep_fst_sub env comp ex ev (by rw [hs]; exact hev)⟩
    | cont ex' =>
      simp at hev
      rcases hev with h | h
      · exact ⟨comp, List.mem_cons_self comp rest,
          updateStep_fst_sub env comp ex ev (by rw [hs]; exact h)⟩
      · obtain ⟨c, hcmem, hd⟩ := ih ex' ev h
        exact ⟨c, List.mem_cons_of_mem comp hcmem, hd⟩

/-- Reconcile-loop events are never command executions or volume creations. -/
theorem updateLoop_reconcile_events (env : Env) (comps : List DevfileComponent) (ex : Bool) :
    ∀ ev ∈ (updateLoop env comps ex).1,
      ev.isCommandExec = false ∧ ev.isCreateVolume = false := by
  intro ev hev
  obtain ⟨c, _, h⟩ := updateLoop_fst_sub env comps ex ev hev
  rcases h with h | h | ⟨id, h⟩ <;> subst h <;> exact ⟨rfl, rfl⟩

end Odo

namespace Odo

/-- A reconcile iteration that continues with flag true started with flag
true and found exactly one container that needed no update. -/
theorem updateStep_cont_true (env : Env) (comp : DevfileComponent) (ex : Bool)
    (tr : List Event) (h : updateStep env comp ex = (tr, .cont true)) :
    ex = true ∧ ∃ k, env.containersFor comp.name = .ok [k] ∧
      env.needsUpdate comp.name = false := by
  unfold updateStep at h
  split at h
  · simp at h
  · split at h
    · simp at h
    · simp at h
  · rename_i c heqc
    split at h
    · simp at h
    · split at h
      · simp at h
      · split at h
        · split at h
          · simp at h
          · split at h
            · simp at h
            · simp at h
        · rename_i hnu
          simp at h
          exact ⟨h.2, c, heqc, by simpa using hnu⟩
  · simp at h

/-- A reconcile iteration over a matched, up-to-date container that continues
keeps the flag unchanged. -/
theorem updateStep_matched_cont (env : Env) (comp : DevfileComponent) (ex ex₂ : Bool)
    (tr : List Event) (h : updateStep env comp ex = (tr, .cont ex₂))
    (k : ContainerInfo) (hk : env.containersFor comp.name = .ok [k])
    (hnu : env.needsUpdate comp.name = false) : ex₂ = ex := by
  unfold updateStep at h
  rw [hk] at h
  split at h
  · rename_i e heq
    simp at heq
  · rename_i heq
    simp at heq
  · rename_i c heqc
    split at h
    · simp at h
    · split at h
      · simp at h
      · rw [if_neg (by simp [hnu])] at h
        simp at h
        exact h.2.symm
  · rename_i a hne hne1 heq
    have ha : a = [k] := by simpa using heq.symm
    exact absurd ha (fun hh => hne1 k hh)

/-- A reconcile loop that completes with flag true started with flag true and
found, for every component, exactly one container needing no update. -/
theorem updateLoop_done_true (env : Env) :
    ∀ comps ex tr, updateLoop env comps ex = (tr, .done true) →
      ex = true ∧ ∀ c ∈ comps, ∃ k, env.containersFor c.name = .ok [k] ∧
        env.needsUpdate c.name = false := by
  intro comps
  induction comps with
  | nil =>
    intro ex tr h
    rw [updateLoop] at h
    simp at h
    exact ⟨h.2, fun c hc => absurd hc (List.not_mem_nil c)⟩
  | cons comp rest ih =>
    intro ex tr h
    rw [updateLoop] at h
    rcases hs : updateStep env comp ex with ⟨trs, res⟩
    rw [hs] at h
    cases res with
    | early b e => simp at h
    | cont ex' =>
      simp at h
      have hrest : updateLoop env rest ex' = ((updateLoop env rest ex').1, LoopRes.done true) := by
        rw [← h.2]
      obtain ⟨hex', hall⟩ := ih ex' (updateLoop env rest ex').1 hrest
      subst hex'
      obtain ⟨hex, k, hk, hnu⟩ := updateStep_cont_true env comp ex trs hs
      refine ⟨hex, fun c hc => ?_⟩
      rcases List.mem_cons.1 hc with hc1 | hc2
      · subst hc1; exact ⟨k, hk, hnu⟩
      · exact hall c hc2

/-- A reconcile loop that completes over components that all have exactly one
up-to-date container returns its starting flag. -/
theorem updateLoop_done_matched (env : Env) :
    ∀ comps ex tr b, updateLoop env comps ex = (tr, .done b) →
      (∀ c ∈ comps, ∃ k, env.containersFor c.name = .ok [k] ∧
        env.needsUpdate c.name = false) → b = ex := by
  intro comps
  induction comps with
  | nil =>
    intro ex tr b h _
    rw [updateLoop] at h
    simp at h
    exact h.2.symm
  | cons comp rest ih =>
    intro ex tr b h hall
    rw [updateLoop] at h
    rcases hs : updateStep env comp ex with ⟨trs, res⟩
    rw [hs] at h
    cases res with
    | early b' e => simp at h
    | cont ex' =>
      simp at h
      have hrest : updateLoop env rest ex' = ((updateLoop env rest ex').1, LoopRes.done b) := by
        rw [← h.2]
      obtain ⟨k, hk, hnu⟩ := hall comp (List.mem_cons_self comp rest)
      have hstep := updateStep_matched_cont env comp ex ex' trs hs k hk hnu
      have := ih ex' (updateLoop env rest ex').1 b hrest
        (fun c hc => hall c (List.mem_cons_of_mem comp hc))
      rw [this, hstep]

end Odo

namespace Odo

/-- C10: the componentExists flag returned by a successful update pass (nil
error; at most one labelled project-source volume, which excludes the state
already hidden by the separate nil-conflict-error defect of the
multiple-volume branch) is an aggregate over all declared containers: it is
true iff every container already existed as the single live container for its
alias and needed no update, it becomes false as soon as any container in the
loop is created or recreated, and a loop that completes starting from false
never returns true. -/
theorem C10_componentExists_aggregate (env : Env) (componentName : String)
    (comps : List DevfileComponent) (vols : List Volume) (tr : List Event) (ex : Bool)
    (hvol : (getVolumesByLabel vols (GetProjectVolumeLabels componentName)).length ≤ 1)
    (h : updateComponent env componentName comps vols = (tr, ex, none)) :
    (ex = true ↔ ∀ c ∈ comps, ∃ k, env.containersFor c.name = .ok [k] ∧
      env.needsUpdate c.name = false) ∧
    (∀ comps' tr' b, updateLoop env comps' false = (tr', LoopRes.done b) → b = false) := by
  constructor
  · simp only [updateComponent] at h
    by_cases h0 : (getVolumesByLabel vols (GetProjectVolumeLabels componentName)).length = 0
    · rw [if_pos h0] at h
      simp at h
    · rw [if_neg h0] at h
      have h1 : ¬ (getVolumesByLabel vols (GetProjectVolumeLabels componentName)).length > 1 := by
        omega
      rw [if_neg h1] at h
      by_cases h2 : comps.length = 0
      · rw [if_pos h2] at h
        simp at h
      · rw [if_neg h2] at h
        rcases hl : updateLoop env comps true with ⟨trl, res⟩
        rw [hl] at h
        cases res with
        | early b e => simp at h
        | done b =>
          simp at h
          obtain ⟨htr, hex, hsto⟩ := h
          constructor
          · intro hext
            exact (updateLoop_done_true env comps true trl (by rw [hl, hex, hext])).2
          · intro hall
            have hb := updateLoop_done_matched env comps true trl b hl hall
            rw [← hex, hb]
  · intro comps' tr' b hl'
    cases b with
    | false => rfl
    | true => exact absurd (updateLoop_done_true env comps' false tr' hl').1 (by simp)

/-- Witness for C10: a clean pass over one matching container yields
componentExists = true. -/
theorem C10_witness :
    ((true = true) ↔ ∀ c ∈ [compC], ∃ k, envClean.containersFor c.name = .ok [k] ∧
      envClean.needsUpdate c.name = false) ∧
    (∀ comps' tr' b, updateLoop envClean comps' false = (tr', LoopRes.done b) → b = false) :=
  C10_componentExists_aggregate envClean "comp" [compC] [volC] [] true (by decide) (by rfl)

end Odo

namespace Odo

/-- When a component with two or more live containers is in the loop (after a
prefix of components with other aliases), the loop returns early with an
error and its trace mutates nothing for that component's alias. -/
theorem updateLoop_multi_early (env : Env) (comp : DevfileComponent)
    (cs : List ContainerInfo) (hc : env.containersFor comp.name = .ok cs)
    (hcs : 2 ≤ cs.length) :
    ∀ pre, (∀ c ∈ pre, c.name ≠ comp.name) → ∀ post ex,
      ∃ tr b e, updateLoop env (pre ++ comp :: post) ex = (tr, .early b e) ∧
        ∀ ev ∈ tr, ev.isMutationFor comp.name = false := by
  intro pre
  induction pre with
  | nil =>
    intro _ post ex
    have hstep : updateStep env comp ex =
        ([], .early true ("Found multiple running containers for devfile component " ++
          comp.name ++ " and cannot push changes")) := by
      unfold updateStep
      rw [hc]
      rcases cs with _ | ⟨c1, _ | ⟨c2, cs'⟩⟩
      · simp at hcs
      · simp at hcs
      · rfl
    refine ⟨[], true,
      "Found multiple running containers for devfile component " ++ comp.name ++
        " and cannot push changes", ?_, by simp⟩
    rw [List.nil_append, updateLoop, hstep]
  | cons c pre' ih =>
    intro hpre post ex
    have hcname : c.name ≠ comp.name := hpre c (List.mem_cons_self c pre')
    rcases hs : updateStep env c ex with ⟨trs, res⟩
    cases res with
    | early b e =>
      refine ⟨trs, b, e, ?_, ?_⟩
      · rw [List.cons_append, updateLoop, hs]
      · intro ev hev
        rcases updateStep_fst_sub env c ex ev (by rw [hs]; exact hev) with h | h | ⟨id, h⟩ <;>
          subst h <;> simp [Event.isMutationFor, hcname]
    | cont ex' =>
      obtain ⟨tr, b, e, hloop, hmut⟩ := ih (fun d hd => hpre d (List.mem_cons_of_mem c hd)) post ex'
      refine ⟨trs ++ tr, b, e, ?_, ?_⟩
      · simp [updateLoop, hs, hloop]
      · intro ev hev
        rcases List.mem_append.1 hev with h | h
        · rcases updateStep_fst_sub env c ex ev (by rw [hs]; exact h) with h' | h' | ⟨id, h'⟩ <;>
            subst h' <;> simp [Event.isMutationFor, hcname]
        · exact hmut ev h

/-- C8: for every (component, alias) pair for which the runtime lists two or
more live containers (with at most one labelled source volume, i.e. outside
the state hidden by the separate nil-conflict-error defect, and the pair's
alias unique among the declared components), reconciliation of the push fails
with a non-nil error, no container is pulled, removed, created or started for
that pair, and the push driver executes no devfile command afterwards. -/
theorem C8_multi_container_push (env : Env) (eenv : ExecEnv) (componentName : String)
    (pre post : List DevfileComponent) (comp : DevfileComponent) (vols : List Volume)
    (cs : List ContainerInfo) (cmds : PushCommandsMap)
    (hvol : (getVolumesByLabel vols (GetProjectVolumeLabels componentName)).length ≤ 1)
    (hc : env.containersFor comp.name = .ok cs) (hcs : 2 ≤ cs.length)
    (hpre : ∀ c ∈ pre, c.name ≠ comp.name) :
    ((updateComponent env componentName (pre ++ comp :: post) vols).2.2).isSome = true ∧
    (∀ ev ∈ (updateComponent env componentName (pre ++ comp :: post) vols).1,
      ev.isMutationFor comp.name = false) ∧
    (∀ ev ∈ (push env eenv componentName (pre ++ comp :: post) vols cmds).1,
      ev.isCommandExec = false) := by
  by_cases h0 : (getVolumesByLabel vols (GetProjectVolumeLabels componentName)).length = 0
  · have hu : updateComponent env componentName (pre ++ comp :: post) vols =
        ([], true, some ("Unable to find source volume for component " ++ componentName)) := by
      simp only [updateComponent]
      rw [if_pos h0]
    refine ⟨by rw [hu]; rfl, by rw [hu]; simp, ?_⟩
    intro ev hev
    unfold push at hev
    rw [hu] at hev
    simp at hev
  · obtain ⟨tr, b, e, hloop, hmut⟩ := updateLoop_multi_early env comp cs hc hcs pre hpre post true
    have h1 : ¬ (getVolumesByLabel vols (GetProjectVolumeLabels componentName)).length > 1 := by
      omega
    have h2 : ¬ (pre ++ comp :: post).length = 0 := by simp
    have hu : updateComponent env componentName (pre ++ comp :: post) vols = (tr, b, some e) := by
      simp only [updateComponent]
      rw [if_neg h0, if_neg h1, if_neg h2, hloop]
    refine ⟨by rw [hu]; rfl, ?_, ?_⟩
    · intro ev hev
      rw [hu] at hev
      exact hmut ev hev
    · intro ev hev
      unfold push at hev
      rw [hu] at hev
      simp at hev
      have := updateLoop_fst_sub env (pre ++ comp :: post) true ev (by rw [hloop]; exact hev)
      obtain ⟨c, _, h⟩ := this
      rcases h with h | h | ⟨id, h⟩ <;> subst h <;> rfl

/-- Witness for C8: two live containers for alias `web` abort the push with
no mutation for that alias and no command execution. -/
theorem C8_witness :
    ((updateComponent envMulti "comp" ([] ++ compC :: []) [volC]).2.2).isSome = true ∧
    (∀ ev ∈ (updateComponent envMulti "comp" ([] ++ compC :: []) [volC]).1,
      ev.isMutationFor compC.name = false) ∧
    (∀ ev ∈ (push envMulti eenvAllOk "comp" ([] ++ compC :: []) [volC] ⟨none, none, none⟩).1,
      ev.isCommandExec = false) :=
  C8_multi_container_push envMulti eenvAllOk "comp" [] [] compC [volC] [⟨"c1"⟩, ⟨"c2"⟩]
    ⟨none, none, none⟩ (by decide) rfl (by decide) (fun c hc => absurd hc (List.not_mem_nil c))

end Odo

namespace Odo

/-- A label set matches itself under docker label filtering. -/
theorem labelsMatch_self (l : Labels) : labelsMatch l l = true := by
  simp [labelsMatch, List.all_eq_true]

/-- Every event of `updateComponent` comes from its reconcile loop: no
command execution and no volume creation ever appears in its trace. -/
theorem updateComponent_fst_events (env : Env) (componentName : String)
    (comps : List DevfileComponent) (vols : List Volume) :
    ∀ ev ∈ (updateComponent env componentName comps vols).1,
      ev.isCommandExec = false ∧ ev.isCreateVolume = false := by
  intro ev hev
  simp only [updateComponent] at hev
  by_cases h0 : (getVolumesByLabel vols (GetProjectVolumeLabels componentName)).length = 0
  · rw [if_pos h0] at hev
    simp at hev
  · rw [if_neg h0] at hev
    by_cases h1 : (getVolumesByLabel vols (GetProjectVolumeLabels componentName)).length > 1
    · rw [if_pos h1] at hev
      simp at hev
    · rw [if_neg h1] at hev
      by_cases h2 : comps.length = 0
      · rw [if_pos h2] at hev
        simp at hev
      · rw [if_neg h2] at hev
        rcases hl : updateLoop env comps true with ⟨trl, res⟩
        rw [hl] at hev
        cases res with
        | early b e =>
          simp at hev
          exact updateLoop_reconcile_events env comps true ev (by rw [hl]; exact hev)
        | done b =>
          simp at hev
          exact updateLoop_reconcile_events env comps true ev (by rw [hl]; exact hev)

/-- C7: volume resolution is idempotent: when exactly one labelled volume
already exists it is returned unchanged with no create call; starting from
zero matching volumes, two successive resolutions issue exactly one create
call (the first) and yield the same volume both times; and the update path
never issues a volume create call at all. -/
theorem C7_volume_resolution_idempotent (e1 e2 : Env) (componentName g1 : String)
    (vols vols0 : List Volume) (v : Volume)
    (hone : getVolumesByLabel vols (GetProjectVolumeLabels componentName) = [v])
    (hzero : getVolumesByLabel vols0 (GetProjectVolumeLabels componentName) = [])
    (hg : e1.genVolName = .ok g1)
    (hcv : e1.createVolumeRes = none) :
    resolveVolume e1 componentName vols = (vols, [], .ok v.name) ∧
    (resolveVolume e1 componentName vols0 =
      (vols0 ++ [⟨g1, GetProjectVolumeLabels componentName⟩], [Event.createVolume g1],
        .ok g1) ∧
     resolveVolume e2 componentName (vols0 ++ [⟨g1, GetProjectVolumeLabels componentName⟩]) =
      (vols0 ++ [⟨g1, GetProjectVolumeLabels componentName⟩], [], .ok g1)) ∧
    (∀ env comps, ∀ ev ∈ (updateComponent env componentName comps vols).1,
      ev.isCreateVolume = false) := by
  refine ⟨?_, ⟨?_, ?_⟩, ?_⟩
  · simp [resolveVolume, hone]
  · simp [resolveVolume, hzero, hg, hcv, createVolume]
  · have hfilter : getVolumesByLabel (vols0 ++ [⟨g1, GetProjectVolumeLabels componentName⟩])
        (GetProjectVolumeLabels componentName) =
        [⟨g1, GetProjectVolumeLabels componentName⟩] := by
      unfold getVolumesByLabel at hzero ⊢
      rw [List.filter_append, hzero, List.nil_append]
      simp [labelsMatch_self]
    simp [resolveVolume, hfilter]
  · intro env comps ev hev
    exact (updateComponent_fst_events env componentName comps vols ev hev).2

/-- Witness for C7 at a concrete state: one existing volume is reused; from
the empty state, resolving twice creates once and returns the same name. -/
theorem C7_witness :
    resolveVolume envStale "comp" [volC] = ([volC], [], .ok volC.name) ∧
    (resolveVolume envStale "comp" [] =
      ([] ++ [⟨"odo-project-source-comp-vgen", GetProjectVolumeLabels "comp"⟩],
        [Event.createVolume "odo-project-source-comp-vgen"],
        .ok "odo-project-source-comp-vgen") ∧
     resolveVolume envStale "comp"
        ([] ++ [⟨"odo-project-source-comp-vgen", GetProjectVolumeLabels "comp"⟩]) =
      ([] ++ [⟨"odo-project-source-comp-vgen", GetProjectVolumeLabels "comp"⟩], [],
        .ok "odo-project-source-comp-vgen")) ∧
    (∀ env comps, ∀ ev ∈ (updateComponent env "comp" comps [volC]).1,
      ev.isCreateVolume = false) :=
  C7_volume_resolution_idempotent envStale envStale "comp" "odo-project-source-comp-vgen"
    [volC] [] volC (by rfl) (by rfl) rfl rfl

/-- C1 (amended): in the reconciler's one-match branch, whenever the desired
and actual container configurations are unequal, the existing container is
removed and the replacement is created and started through the same
`startComponent` call as the zero-match branch — but WITHOUT the image pull
of the zero-match branch — and the component is surfaced as
componentExists = false. -/
theorem C1_recreate_without_pull (env : Env) (componentName : String)
    (comp : DevfileComponent) (vols : List Volume) (v : Volume) (k : ContainerInfo)
    (pmr : List (Int × List PortBinding) × List (Int × String))
    (hone : getVolumesByLabel vols (GetProjectVolumeLabels componentName) = [v])
    (hsto : env.storageCreate = none)
    (hc : env.containersFor comp.name = .ok [k])
    (hcfg : env.getConfig k.id = .ok ())
    (hpm : getPortMapE env comp.endpoints = .ok pmr)
    (hneq : env.needsUpdate comp.name = true)
    (hrm : env.removeContainer k.id = .ok ())
    (hrc : env.getRunCommand = .ok ())
    (hsc : env.startContainer comp.name = .ok ()) :
    updateComponent env componentName [comp] vols =
      ([Event.removeContainer comp.name k.id, Event.startContainer comp.name comp.image],
        false, none) := by
  have hstart : startComponent env comp =
      ([Event.startContainer comp.name comp.image], none) := by
    simp only [startComponent, hpm, hrc, hsc]
  have hstep : updateStep env comp true =
      ([Event.removeContainer comp.name k.id, Event.startContainer comp.name comp.image],
        .cont false) := by
    simp [updateStep, hc, hcfg, hpm, hneq, hrm, hstart]
  have hloop : updateLoop env [comp] true =
      ([Event.removeContainer comp.name k.id, Event.startContainer comp.name comp.image],
        .done false) := by
    simp [updateLoop, hstep]
  have h0 : ¬ (getVolumesByLabel vols (GetProjectVolumeLabels componentName)).length = 0 := by
    rw [hone]; simp
  have h1 : ¬ (getVolumesByLabel vols (GetProjectVolumeLabels componentName)).length > 1 := by
    rw [hone]; simp
  simp only [updateComponent]
  rw [if_neg h0, if_neg h1,
    if_neg (show ¬ ([comp] : List DevfileComponent).length = 0 by simp), hloop, hsto]

/-- Witness for C1's amended statement at a concrete stale container. -/
theorem C1_witness :
    updateComponent envStale "comp" [compC] [volC] =
      ([Event.removeContainer compC.name "cid", Event.startContainer compC.name compC.image],
        false, none) :=
  C1_recreate_without_pull envStale "comp" compC [volC] volC ⟨"cid"⟩ ([], [])
    (by rfl) rfl rfl rfl (by rfl) rfl rfl rfl rfl

/-- C1 counterexample: in the one-match branch with unequal configurations
the code removes the container and starts the replacement WITHOUT pulling the
image — the recreate trace contains no pull event — refuting the claim that
the same pull+create+start sequence as the zero-match branch is performed. -/
theorem C1_counterexample :
    updateComponent envStale "comp" [compC] [volC] =
      ([Event.removeContainer "web" "cid", Event.startContainer "web" "img"], false, none) ∧
    (updateComponent envStale "comp" [compC] [volC]).1.all (fun ev => !ev.isPull) = true :=
  ⟨by rfl, by rfl⟩

/-- C2 (code defect): with two volumes carrying the identical project-source
label set, the multiple-volume branch of BOTH the create and the update path
returns early with a NIL error — `errors.Wrapf` of the nil `err` in scope at
lines 57 and 108 — instead of the non-nil conflict error the claim requires;
it does perform no further mutation (empty trace, runtime state unchanged). -/
theorem C2_nil_conflict_error :
    createComponent envStale "comp" [compC] [volC, volC2] = ([volC, volC2], [], none) ∧
    updateComponent envStale "comp" [compC] [volC, volC2] = ([], true, none) ∧
    wrapf none "Error, multiple source volumes found for component comp" = none :=
  ⟨by rfl, by rfl, by rfl⟩

/-- C3 (code defect): a storage-adapter Create failure in the update path is
computed into `err` at line 114 but never checked: the reconcile loop still
runs — here removing and recreating the stale container — and the unwrapped
storage error only leaks out through the naked return after the loop, so the
update is not aborted. -/
theorem C3_storage_error_ignored :
    updateComponent envStorageErr "comp" [compC] [volC] =
      ([Event.removeContainer "web" "cid", Event.startContainer "web" "img"], false,
        some "disk full") := by
  rfl

end Odo
